import Mathlib

/-!
# Verification of the GitButler session/delta core

Shallow embedding of the analyzed sources:

* `src-tauri/src/search/deltas.rs` — `DeltasIndex::write` and `DeltasIndex::search`,
  the indexing of a flushed session's deltas into the document index;
* `packages/tauri/src/watcher/handlers/flush_session.rs` — the flush-session
  watcher handler (`Handler::handle`, `HandlerInner::handle`);
* `gitbutler-git/src/ops.rs` — `has_utmost_discretion` / `set_utmost_discretion`.

External collaborators that the sources call but whose code is not among the
analyzed files (`deltas::Operation::apply`, the `Repository` config capability,
the tantivy collector) are modelled explicitly; each such definition carries a
doc comment saying so.
-/

namespace GitButler

/-- An edit operation, as used by the indexing code.
Source shape: `deltas::Operation::Insert((from, value))` and
`deltas::Operation::Delete((from, len))` (`from` is renamed `pos` here because
`from` is a Lean keyword). -/
inductive Operation : Type
  | Insert : Nat → String → Operation
  | Delete : Nat → Nat → Operation
deriving DecidableEq, Repr

/-- A delta: a timestamped ordered list of operations
(`deltas::Delta { timestamp, operations }`). -/
structure Delta where
  timestamp : Nat
  operations : List Operation
deriving DecidableEq, Repr

/-- The part of `sessions::Session` the analyzed code reads: its id and its
optional hash (set exactly when the session has been flushed). -/
structure Session where
  id : String
  hash : Option String
deriving DecidableEq, Repr

/-- Error raised by replaying a malformed operation. -/
inductive OpError : Type
  | MalformedOperation
deriving DecidableEq, Repr

/-- Modelled from the spec: `deltas::Operation::apply` itself is not among the
analyzed sources (only its call site in `DeltasIndex::write` is). The spec says
applying an operation to a character sequence is a pure deterministic function
that "fails only if `position` is out of bounds (signals `MalformedOperation`)";
an `Insert` splices its text at `pos`, a `Delete` removes `len` characters
starting at `pos`. -/
def Operation.apply (text : List Char) : Operation → Except OpError (List Char)
  | .Insert pos value =>
      if pos ≤ text.length then
        .ok (text.take pos ++ value.toList ++ text.drop pos)
      else
        .error .MalformedOperation
  | .Delete pos len =>
      if pos + len ≤ text.length then
        .ok (text.take pos ++ text.drop (pos + len))
      else
        .error .MalformedOperation

/-- `replay(base_sequence, operations)`: left fold of `Operation.apply`,
propagating `MalformedOperation`. -/
def replay (base : List Char) : List Operation → Except OpError (List Char)
  | [] => .ok base
  | op :: ops =>
      match Operation.apply base op with
      | .error e => .error e
      | .ok t => replay t ops

/-- The state update the indexing loop actually performs: the statement
`operation.apply(&mut file_text);` discards the result of `apply`, so on a
malformed operation the text is left unchanged and the loop continues. -/
def applyOrKeep (text : List Char) (op : Operation) : List Char :=
  match op.apply text with
  | .ok t => t
  | .error _ => text

/-- Replay that never fails: folds `applyOrKeep` — the file-text evolution of
the indexing loop in `DeltasIndex::write`. -/
def replayKeep (base : List Char) (ops : List Operation) : List Char :=
  ops.foldl applyOrKeep base

/-- One record added to the document index by `DeltasIndex::write`: the fields
the loop sets on each `tantivy::Document` (`index`, `session_hash`,
`file_path`, `diff`, `is_addition`, `is_deletion`). -/
structure Doc where
  index : Nat
  session_hash : String
  file_path : String
  diff : String
  is_addition : Bool
  is_deletion : Bool
deriving DecidableEq, Repr

/-- The document emitted for one operation, given the current `file_text` and
the enclosing delta's index `i`. For a `Delete((from, len))` the `diff` is
`file_text.iter().skip(from).take(len).collect()` — note that `skip`/`take`
clamp at the end of the sequence. For an `Insert` the `diff` is the inserted
value. -/
def docForOp (hash fp : String) (i : Nat) (text : List Char) : Operation → Doc
  | .Insert _ value => ⟨i, hash, fp, value, true, false⟩
  | .Delete pos len => ⟨i, hash, fp, ((text.drop pos).take len).asString, false, true⟩

/-- The inner loop of `DeltasIndex::write`: for every operation of one delta
(delta index `i`), emit its document and then apply the operation to the
running file text. Returns the emitted documents and the final text. -/
def indexOps (hash fp : String) (i : Nat) : List Char → List Operation → List Doc × List Char
  | text, [] => ([], text)
  | text, op :: ops =>
      (docForOp hash fp i text op :: (indexOps hash fp i (applyOrKeep text op) ops).1,
        (indexOps hash fp i (applyOrKeep text op) ops).2)

/-- The middle loop of `DeltasIndex::write`: `for (i, delta) in
deltas.into_iter().enumerate()`, threading the file text across deltas. -/
def indexDeltas (hash fp : String) : Nat → List Char → List Delta → List Doc × List Char
  | _, text, [] => ([], text)
  | i, text, d :: rest =>
      ((indexOps hash fp i text d.operations).1
          ++ (indexDeltas hash fp (i + 1) (indexOps hash fp i text d.operations).2 rest).1,
        (indexDeltas hash fp (i + 1) (indexOps hash fp i text d.operations).2 rest).2)

/-- `files.get(&file_path).map(|f| f.as_str()).unwrap_or("")`: the session's
stored base content for a file, defaulting to the empty string. -/
def fileText (files : List (String × String)) (fp : String) : String :=
  ((files.find? (fun p => p.1 == fp)).map (fun p => p.2)).getD ""

/-- `DeltasIndex::write`, with the data it reads from the repository passed in
explicitly: `dmap` is the session's file-path-to-deltas mapping (from
`deltas::list`) and `files` the base contents (from `sessions::list_files`).
Faithful to the source: an empty delta mapping returns `Ok` at once (before the
hash is inspected); a missing session hash is an error; otherwise one document
per operation per delta per file is produced. -/
def DeltasIndex.write (session : Session) (dmap : List (String × List Delta))
    (files : List (String × String)) : Except String (List Doc) :=
  if dmap.isEmpty then .ok []
  else
    match session.hash with
    | none => .error "Session hash is not set, on"
    | some hash =>
        .ok ((dmap.map (fun p => (indexDeltas hash p.1 0 (fileText files p.1).toList p.2).1)).flatten)

/-- The flattened operation stream of a file's delta list, each operation tagged
with the index of its enclosing delta (the `i` of `enumerate`). -/
def deltaStream : Nat → List Delta → List (Nat × Operation)
  | _, [] => []
  | i, d :: rest => d.operations.map (fun op => (i, op)) ++ deltaStream (i + 1) rest

/-- Sequential specification of the indexing loop: one document per stream
element, each computed from the text state reached by applying all previous
operations. -/
def emitStream (hash fp : String) : List Char → List (Nat × Operation) → List Doc
  | _, [] => []
  | text, q :: rest =>
      docForOp hash fp q.1 text q.2 :: emitStream hash fp (applyOrKeep text q.2) rest

/-- A result row of `DeltasIndex::search` (`SearchResult`). -/
structure SearchResult where
  session_hash : String
  file_path : String
  index : Nat
deriving DecidableEq, Repr

/-- The limit passed to the collector: `collector::TopDocs::with_limit(10)`. -/
def searchLimit : Nat := 10

/-- Model of the external tantivy collector `TopDocs::with_limit(limit)`: it
returns at most `limit` of the matching documents (best-scored first; the
ordering is the library's concern, the bound is its contract). -/
def topDocs (limit : Nat) (hits : List Doc) : List Doc :=
  hits.take limit

/-- `DeltasIndex::search`, with the index's matching documents for the query
passed in explicitly: collect at most `searchLimit` of them and project out the
stored fields. -/
def DeltasIndex.search (hits : List Doc) : List SearchResult :=
  (topDocs searchLimit hits).map (fun d => ⟨d.session_hash, d.file_path, d.index⟩)

/-- Modelled from the spec: the `Repository` capability with `config_get` /
`config_set` is not among the analyzed sources (only `gitbutler-git/src/ops.rs`,
which calls it, is). Modelled as a flat key-value store in which a set value
shadows any previous value for the key, so a subsequent get reads it back. -/
structure Repo where
  config : List (String × String)
deriving DecidableEq, Repr

/-- Modelled from the spec: `Repository::config_get(key, ConfigScope::Auto)` —
look the key up in the store. -/
def config_get (repo : Repo) (key : String) : Option String :=
  (repo.config.find? (fun p => p.1 == key)).map (fun p => p.2)

/-- Modelled from the spec: `Repository::config_set(key, value,
ConfigScope::Local)` — store the value for the key, shadowing any old value. -/
def config_set (repo : Repo) (key value : String) : Repo :=
  ⟨(key, value) :: repo.config.filter (fun p => !(p.1 == key))⟩

/-- `ops::has_utmost_discretion`: the config value for
`gitbutler.utmostDiscretion` equals `Some("true")`. -/
def has_utmost_discretion (repo : Repo) : Bool :=
  config_get repo "gitbutler.utmostDiscretion" == some "true"

/-- `ops::set_utmost_discretion`: store `"true"` or `"false"` under
`gitbutler.utmostDiscretion`. -/
def set_utmost_discretion (repo : Repo) (value : Bool) : Repo :=
  config_set repo "gitbutler.utmostDiscretion" (if value then "true" else "false")

/-- `virtual_branches::controller::ControllerError`, as the handler
distinguishes it: the `VerifyError` variant is matched specially, every other
variant falls through to the catch-all arm and is modelled by `Other`. -/
inductive ControllerError : Type
  | VerifyError : String → ControllerError
  | Other : String → ControllerError
deriving DecidableEq, Repr

/-- The handler's error type (`anyhow::Error`): either a message (possibly a
`.context(...)` wrapper) or a converted `ControllerError`. -/
inductive HandlerError : Type
  | Anyhow : String → HandlerError
  | Controller : ControllerError → HandlerError
deriving DecidableEq, Repr

/-- The events a successful flush returns (`events::Event`). -/
inductive Event : Type
  | Session : String → GitButler.Session → Event
  | PushGitbutlerData : String → Event
  | PushProjectToGitbutler : String → Event
deriving DecidableEq, Repr

/-- The results of the external calls `HandlerInner::handle` performs, in
source order: `project_store.get`, `users.get_user`,
`project_repository::Repository::open`, `gb_repository::Repository::open`,
`vbrach_controller.flush_vbranches`, and `gb_repo.flush_session` (which yields
the flushed session). -/
structure FlushEnv where
  getProject : Except String Unit
  getUser : Except String Unit
  openProjectRepository : Except String Unit
  openGbRepository : Except String Unit
  flushVbranches : Except ControllerError Unit
  flushSession : Except String Session

/-- What one `handle` call did: the warnings it logged via `tracing::warn!`,
the session flushed by `gb_repo.flush_session` (if that call was reached and
succeeded), and the returned result. -/
structure Outcome where
  warnings : List String
  flushedSession : Option Session
  result : Except HandlerError (List Event)

/-- The tail of `HandlerInner::handle` after the virtual-branch flush: flush
the session and, on success, return the three events. -/
def afterVbranches (env : FlushEnv) (projectId : String) (session : Session)
    (warnings : List String) : Outcome :=
  match env.flushSession with
  | .error e =>
      ⟨warnings, none,
        .error (.Anyhow ("failed to flush session " ++ session.id ++ ": " ++ e))⟩
  | .ok flushed =>
      ⟨warnings, some flushed,
        .ok [.Session projectId flushed, .PushGitbutlerData projectId,
          .PushProjectToGitbutler projectId]⟩

/-- `HandlerInner::handle`: open everything, flush virtual branches — a
`VerifyError` is logged as a warning and the flush continues, any other
controller error is returned — then flush the session and return the events. -/
def HandlerInner.handle (env : FlushEnv) (projectId : String) (session : Session) : Outcome :=
  match env.getProject with
  | .error e => ⟨[], none, .error (.Anyhow ("failed to get project: " ++ e))⟩
  | .ok _ =>
    match env.getUser with
    | .error e => ⟨[], none, .error (.Anyhow e)⟩
    | .ok _ =>
      match env.openProjectRepository with
      | .error e => ⟨[], none, .error (.Anyhow ("failed to open repository: " ++ e))⟩
      | .ok _ =>
        match env.openGbRepository with
        | .error e => ⟨[], none, .error (.Anyhow ("failed to open repository: " ++ e))⟩
        | .ok _ =>
          match env.flushVbranches with
          | .ok _ => afterVbranches env projectId session []
          | .error (.VerifyError _) =>
              afterVbranches env projectId session ["failed to flush virtual branches"]
          | .error e => ⟨[], none, .error (.Controller e)⟩

/-- The state of the handler's `Arc<Mutex<HandlerInner>>` at the moment of the
`try_lock` call. -/
inductive LockState : Type
  | unlocked
  | held
  | poisoned
deriving DecidableEq, Repr

/-- `Handler::handle`: `try_lock` on the inner mutex — run the inner handler if
the lock is free, return `Ok(vec![])` if it is held (`WouldBlock`), error if it
is poisoned. -/
def Handler.handle (lock : LockState) (env : FlushEnv) (projectId : String)
    (session : Session) : Outcome :=
  match lock with
  | .unlocked => HandlerInner.handle env projectId session
  | .held => ⟨[], none, .ok []⟩
  | .poisoned => ⟨[], none, .error (.Anyhow "mutex poisoned")⟩

/-! ## Helper lemmas -/

theorem map_snd_tag (i : Nat) (ops : List Operation) :
    (ops.map (fun op => (i, op))).map Prod.snd = ops := by
  simp

theorem indexOps_eq (hash fp : String) (i : Nat) (text : List Char) (ops : List Operation) :
    indexOps hash fp i text ops
      = (emitStream hash fp text (ops.map (fun op => (i, op))), replayKeep text ops) := by
  induction ops generalizing text with
  | nil => rfl
  | cons op ops ih => simp [indexOps, emitStream, replayKeep, ih]

theorem emitStream_append (hash fp : String) (text : List Char)
    (s t : List (Nat × Operation)) :
    emitStream hash fp text (s ++ t)
      = emitStream hash fp text s
        ++ emitStream hash fp (replayKeep text (s.map Prod.snd)) t := by
  induction s generalizing text with
  | nil => simp [emitStream, replayKeep]
  | cons q s ih => simp [emitStream, replayKeep, ih]

theorem indexDeltas_eq (hash fp : String) (i : Nat) (text : List Char) (ds : List Delta) :
    indexDeltas hash fp i text ds
      = (emitStream hash fp text (deltaStream i ds),
          replayKeep text ((deltaStream i ds).map Prod.snd)) := by
  induction ds generalizing i text with
  | nil => rfl
  | cons d rest ih =>
      simp [indexDeltas, deltaStream, indexOps_eq, ih, emitStream_append, replayKeep,
        List.foldl_append, map_snd_tag]

theorem replayKeep_of_replay_ok (base out : List Char) (ops : List Operation)
    (h : replay base ops = .ok out) : replayKeep base ops = out := by
  induction ops generalizing base with
  | nil =>
      have hb : base = out := Except.ok.inj (by simpa only [replay] using h)
      simp [replayKeep, hb]
  | cons op ops ih =>
      simp only [replay] at h
      cases hap : Operation.apply base op with
      | error e =>
          rw [hap] at h
          exact absurd h (by simp)
      | ok t =>
          rw [hap] at h
          have hk : applyOrKeep base op = t := by simp [applyOrKeep, hap]
          simp only [replayKeep, List.foldl_cons, hk]
          exact ih t h

theorem emitStream_length (hash fp : String) (text : List Char)
    (s : List (Nat × Operation)) :
    (emitStream hash fp text s).length = s.length := by
  induction s generalizing text with
  | nil => rfl
  | cons q s ih => simp [emitStream, ih]

theorem emitStream_key_fields (hash fp : String) (text : List Char)
    (s : List (Nat × Operation)) :
    (emitStream hash fp text s).map (fun d => (d.index, d.file_path, d.session_hash))
      = s.map (fun q => (q.1, fp, hash)) := by
  induction s generalizing text with
  | nil => rfl
  | cons q s ih =>
      cases q with
      | mk i op => cases op <;> simp [emitStream, docForOp, ih]

/-! ## The claims -/

/-- **C1.** For every flushed session and file, when `DeltasIndex::write` indexes
a `Delete((from, len))` operation, the removed text it records is exactly the
`len` characters starting at offset `from` of the character sequence obtained by
replaying, in recorded order, all preceding operations of the session's deltas
for that file onto the stored base content (the pre-delete state); the operation
itself is applied to the running text only after the record is produced — the
records after it are computed from `applyOrKeep state (Delete (pos, len))`. -/
theorem delete_record_is_predelete_slice
    (hash fp : String) (base : List Char) (ds : List Delta)
    (pre post : List (Nat × Operation)) (i pos len : Nat) (state : List Char)
    (hs : deltaStream 0 ds = pre ++ (i, Operation.Delete pos len) :: post)
    (hr : replay base (pre.map Prod.snd) = .ok state)
    (hb : pos + len ≤ state.length) :
    (indexDeltas hash fp 0 base ds).1
        = emitStream hash fp base pre
            ++ Doc.mk i hash fp ((state.drop pos).take len).asString false true
              :: emitStream hash fp (applyOrKeep state (Operation.Delete pos len)) post
      ∧ ((state.drop pos).take len).length = len := by
  have hkeep : replayKeep base (pre.map Prod.snd) = state :=
    replayKeep_of_replay_ok base state (pre.map Prod.snd) hr
  constructor
  · have h1 : (indexDeltas hash fp 0 base ds).1
        = emitStream hash fp base (deltaStream 0 ds) := by
      rw [indexDeltas_eq]
    rw [h1, hs, emitStream_append, hkeep]
    simp [emitStream, docForOp]
  · simp only [List.length_take, List.length_drop]
    omega

/-- Witness for C1: a `Delete((1, 2))` against base content `"abc"` records the
removed text `"bc"`, of length 2, computed before the delete is applied. -/
theorem delete_record_is_predelete_slice_witness :
    (indexDeltas "h" "f" 0 "abc".toList [Delta.mk 0 [Operation.Delete 1 2]]).1
        = emitStream "h" "f" "abc".toList []
            ++ Doc.mk 0 "h" "f" (("abc".toList.drop 1).take 2).asString false true
              :: emitStream "h" "f" (applyOrKeep "abc".toList (Operation.Delete 1 2)) []
      ∧ (("abc".toList.drop 1).take 2).length = 2 :=
  delete_record_is_predelete_slice "h" "f" "abc".toList [Delta.mk 0 [Operation.Delete 1 2]]
    [] [] 0 1 2 "abc".toList (by decide) rfl (by decide)

/-- **C2.** A `VerifyError` from flushing virtual branches does not propagate:
it is logged as a warning, the flush continues, the session is still flushed,
and the normal event list is returned. -/
theorem verify_error_degrades_to_warning
    (env : FlushEnv) (projectId msg : String) (session flushed : Session)
    (hp : env.getProject = .ok ()) (hu : env.getUser = .ok ())
    (hpr : env.openProjectRepository = .ok ()) (hgb : env.openGbRepository = .ok ())
    (hv : env.flushVbranches = .error (.VerifyError msg))
    (hf : env.flushSession = .ok flushed) :
    Handler.handle .unlocked env projectId session
      = ⟨["failed to flush virtual branches"], some flushed,
          .ok [.Session projectId flushed, .PushGitbutlerData projectId,
            .PushProjectToGitbutler projectId]⟩ := by
  simp [Handler.handle, HandlerInner.handle, afterVbranches, hp, hu, hpr, hgb, hv, hf]

/-- Witness for C2 at a concrete environment. -/
theorem verify_error_degrades_to_warning_witness :
    Handler.handle .unlocked
        ⟨.ok (), .ok (), .ok (), .ok (), .error (.VerifyError "stale claims"),
          .ok (Session.mk "s2" (some "h"))⟩ "p" (Session.mk "s1" none)
      = ⟨["failed to flush virtual branches"], some (Session.mk "s2" (some "h")),
          .ok [.Session "p" (Session.mk "s2" (some "h")), .PushGitbutlerData "p",
            .PushProjectToGitbutler "p"]⟩ :=
  verify_error_degrades_to_warning
    ⟨.ok (), .ok (), .ok (), .ok (), .error (.VerifyError "stale claims"),
      .ok (Session.mk "s2" (some "h"))⟩
    "p" "stale claims" (Session.mk "s1" none) (Session.mk "s2" (some "h"))
    rfl rfl rfl rfl rfl rfl

/-- **C3.** If a flush is already in progress (the per-project lock is held),
`Handler::handle` returns immediately with an empty event list: no warning is
logged, no session is flushed, nothing blocks or queues. -/
theorem flush_in_progress_skips
    (env : FlushEnv) (projectId : String) (session : Session) :
    Handler.handle .held env projectId session = ⟨[], none, .ok []⟩ := rfl

/-- **C4 counterexample.** `Delete((5, 3))` against the two-character content
`"ab"`: the operation is malformed (`apply` signals `MalformedOperation`), yet
`DeltasIndex::write` surfaces no error — it returns `Ok` and records an empty
removed text, the clamped result of `skip(5).take(3)`. -/
theorem out_of_range_delete_clamped_counterexample :
    Operation.apply "ab".toList (Operation.Delete 5 3)
        = .error .MalformedOperation
      ∧ DeltasIndex.write (Session.mk "s" (some "h"))
            [("f", [Delta.mk 0 [Operation.Delete 5 3]])] [("f", "ab")]
          = .ok [Doc.mk 0 "h" "f" "" false true] := by
  constructor
  · rfl
  · rfl

/-- **C4 (amended).** Applying an operation whose position (or position plus
length, for `Delete`) exceeds the sequence length fails with
`MalformedOperation` — `apply` never clamps. But when `DeltasIndex::write`
indexes a `Delete((from, len))` whose range extends past the current file
content (`from + len > length` of the replayed pre-delete state), no error is
surfaced: `write` still returns `Ok` for the whole session, the record emitted
for that `Delete` carries the clamped slice `skip(from).take(len)` — truncated
to `length - from` characters when `from ≤ length`, empty when `from` is past
the end — and the loop continues with the file text unchanged (`apply`'s error
is discarded). Stated for every file of the session and every decomposition of
that file's operation stream around such a `Delete`. -/
theorem malformed_apply_vs_clamped_indexing
    (session : Session) (dmap : List (String × List Delta)) (files : List (String × String))
    (hash fp : String) (ds : List Delta) (pre post : List (Nat × Operation))
    (i pos len : Nat) (state : List Char)
    (hh : session.hash = some hash) (hmem : (fp, ds) ∈ dmap)
    (hs : deltaStream 0 ds = pre ++ (i, Operation.Delete pos len) :: post)
    (hstate : replayKeep (fileText files fp).toList (pre.map Prod.snd) = state)
    (hb : state.length < pos + len) :
    Operation.apply state (Operation.Delete pos len) = .error .MalformedOperation
      ∧ (∀ (p : Nat) (value : String) (t : List Char), t.length < p →
          Operation.apply t (Operation.Insert p value) = .error .MalformedOperation)
      ∧ DeltasIndex.write session dmap files
          = .ok ((dmap.map (fun p =>
              emitStream hash p.1 (fileText files p.1).toList (deltaStream 0 p.2))).flatten)
      ∧ applyOrKeep state (Operation.Delete pos len) = state
      ∧ (indexDeltas hash fp 0 (fileText files fp).toList ds).1
          = emitStream hash fp (fileText files fp).toList pre
              ++ Doc.mk i hash fp ((state.drop pos).take len).asString false true
                :: emitStream hash fp state post
      ∧ ((state.drop pos).take len).length = state.length - pos := by
  have hap : Operation.apply state (Operation.Delete pos len) = .error .MalformedOperation := by
    simp only [Operation.apply]
    rw [if_neg (by omega)]
  have hkeep : applyOrKeep state (Operation.Delete pos len) = state := by
    simp [applyOrKeep, hap]
  refine ⟨hap, ?_, ?_, hkeep, ?_, ?_⟩
  · intro p value t ht
    simp only [Operation.apply]
    rw [if_neg (by omega)]
  · have hie : dmap.isEmpty = false := by
      cases dmap with
      | nil => cases hmem
      | cons q rest => rfl
    simp [DeltasIndex.write, hie, hh, indexDeltas_eq]
  · have h1 : (indexDeltas hash fp 0 (fileText files fp).toList ds).1
        = emitStream hash fp (fileText files fp).toList (deltaStream 0 ds) := by
      rw [indexDeltas_eq]
    rw [h1, hs, emitStream_append, hstate]
    simp [emitStream, docForOp, hkeep]
  · simp only [List.length_take, List.length_drop]
    omega

/-- Witness for the amended C4: base content `"abc"`, one `Delete((1, 5))` whose
range extends past the three-character content: `apply` signals
`MalformedOperation`, yet `write` returns `Ok`, the record carries the
*truncated* non-empty removed text `"bc"` (2 = 3 - 1 characters), and the loop's
text is unchanged. -/
theorem malformed_apply_vs_clamped_indexing_witness :
    Operation.apply "abc".toList (Operation.Delete 1 5) = .error .MalformedOperation
      ∧ (∀ (p : Nat) (value : String) (t : List Char), t.length < p →
          Operation.apply t (Operation.Insert p value) = .error .MalformedOperation)
      ∧ DeltasIndex.write (Session.mk "s" (some "h"))
            [("f", [Delta.mk 0 [Operation.Delete 1 5]])] [("f", "abc")]
          = .ok (([("f", [Delta.mk 0 [Operation.Delete 1 5]])].map (fun p =>
              emitStream "h" p.1 (fileText [("f", "abc")] p.1).toList (deltaStream 0 p.2))).flatten)
      ∧ applyOrKeep "abc".toList (Operation.Delete 1 5) = "abc".toList
      ∧ (indexDeltas "h" "f" 0 (fileText [("f", "abc")] "f").toList
            [Delta.mk 0 [Operation.Delete 1 5]]).1
          = emitStream "h" "f" (fileText [("f", "abc")] "f").toList []
              ++ Doc.mk 0 "h" "f" (("abc".toList.drop 1).take 5).asString false true
                :: emitStream "h" "f" "abc".toList []
      ∧ (("abc".toList.drop 1).take 5).length = "abc".toList.length - 1 :=
  malformed_apply_vs_clamped_indexing (Session.mk "s" (some "h"))
    [("f", [Delta.mk 0 [Operation.Delete 1 5]])] [("f", "abc")] "h" "f"
    [Delta.mk 0 [Operation.Delete 1 5]] [] [] 0 1 5 "abc".toList
    rfl (by decide) (by decide) rfl (by decide)

/-- **C5 counterexample.** A delta holding two operations: both emitted records
carry `index = 0`, the enclosing delta's index, while the operations' indices
within the file's operation stream are 0 and 1 — so the record does not carry
the operation's index within the session's operation stream. -/
theorem record_index_counterexample :
    (DeltasIndex.write (Session.mk "s" (some "h"))
          [("f", [Delta.mk 0 [Operation.Insert 0 "a", Operation.Insert 1 "b"]])] []).map
        (fun docs => docs.map (fun d => d.index))
      = .ok [0, 0] ∧ ([0, 0] : List Nat) ≠ [0, 1] := by
  constructor
  · rfl
  · decide

/-- **C5 (amended).** For every flushed session with a hash set and a non-empty
delta mapping, `DeltasIndex::write` emits exactly one record per operation
(documents are in bijection with the operation stream), each record carrying the
file path, the index of the operation's *enclosing delta* within the file's
delta list, the session hash, and the added text (for `Insert`, the inserted
value) or removed text (for `Delete`, the slice of the replayed state). -/
theorem write_one_record_per_operation
    (session : Session) (dmap : List (String × List Delta)) (files : List (String × String))
    (hash : String) (hh : session.hash = some hash) (hne : dmap ≠ []) :
    DeltasIndex.write session dmap files
        = .ok ((dmap.map (fun p =>
            emitStream hash p.1 (fileText files p.1).toList (deltaStream 0 p.2))).flatten)
      ∧ (∀ (fp : String) (text : List Char) (s : List (Nat × Operation)),
          (emitStream hash fp text s).length = s.length)
      ∧ (∀ (fp : String) (text : List Char) (s : List (Nat × Operation)),
          (emitStream hash fp text s).map (fun d => (d.index, d.file_path, d.session_hash))
            = s.map (fun q => (q.1, fp, hash)))
      ∧ (∀ (fp value : String) (i pos : Nat) (text : List Char),
          docForOp hash fp i text (Operation.Insert pos value)
            = Doc.mk i hash fp value true false) := by
  refine ⟨?_, fun fp text s => emitStream_length hash fp text s,
    fun fp text s => emitStream_key_fields hash fp text s,
    fun _ _ _ _ _ => rfl⟩
  have hie : dmap.isEmpty = false := by
    cases dmap with
    | nil => exact absurd rfl hne
    | cons p rest => rfl
  simp [DeltasIndex.write, hie, hh, indexDeltas_eq]

/-- Witness for the amended C5 at a concrete session. -/
theorem write_one_record_per_operation_witness :
    (DeltasIndex.write (Session.mk "s" (some "h"))
          [("f", [Delta.mk 0 [Operation.Insert 0 "a", Operation.Insert 1 "b"]])] []
        = .ok (([("f", [Delta.mk 0 [Operation.Insert 0 "a", Operation.Insert 1 "b"]])].map
            (fun p => emitStream "h" p.1 (fileText [] p.1).toList (deltaStream 0 p.2))).flatten))
      ∧ (∀ (fp : String) (text : List Char) (s : List (Nat × Operation)),
          (emitStream "h" fp text s).length = s.length)
      ∧ (∀ (fp : String) (text : List Char) (s : List (Nat × Operation)),
          (emitStream "h" fp text s).map (fun d => (d.index, d.file_path, d.session_hash))
            = s.map (fun q => (q.1, fp, "h")))
      ∧ (∀ (fp value : String) (i pos : Nat) (text : List Char),
          docForOp "h" fp i text (Operation.Insert pos value)
            = Doc.mk i "h" fp value true false) :=
  write_one_record_per_operation (Session.mk "s" (some "h"))
    [("f", [Delta.mk 0 [Operation.Insert 0 "a", Operation.Insert 1 "b"]])] [] "h"
    rfl (by decide)

/-- **C6.** If flushing virtual branches fails with any error other than a
verification error, `Handler::handle` aborts: it returns that error, flushes no
session, and emits no events. -/
theorem nonverify_error_aborts_flush
    (env : FlushEnv) (projectId : String) (session : Session) (e : ControllerError)
    (hp : env.getProject = .ok ()) (hu : env.getUser = .ok ())
    (hpr : env.openProjectRepository = .ok ()) (hgb : env.openGbRepository = .ok ())
    (hv : env.flushVbranches = .error e)
    (hne : ∀ msg, e ≠ ControllerError.VerifyError msg) :
    Handler.handle .unlocked env projectId session
      = ⟨[], none, .error (.Controller e)⟩ := by
  cases e with
  | VerifyError m => exact absurd rfl (hne m)
  | Other m => simp [Handler.handle, HandlerInner.handle, hp, hu, hpr, hgb, hv]

/-- Witness for C6 at a concrete environment. -/
theorem nonverify_error_aborts_flush_witness :
    Handler.handle .unlocked
        ⟨.ok (), .ok (), .ok (), .ok (), .error (.Other "backend failure"),
          .ok (Session.mk "s2" (some "h"))⟩ "p" (Session.mk "s1" none)
      = ⟨[], none, .error (.Controller (.Other "backend failure"))⟩ :=
  nonverify_error_aborts_flush
    ⟨.ok (), .ok (), .ok (), .ok (), .error (.Other "backend failure"),
      .ok (Session.mk "s2" (some "h"))⟩
    "p" (Session.mk "s1" none) (.Other "backend failure")
    rfl rfl rfl rfl rfl (fun _ h => ControllerError.noConfusion h)

/-- **C7.** Replay is deterministic: replaying the same operations in recorded
order twice from the same base yields identical output, and running
`DeltasIndex::write` twice over the same session data produces identical
records. -/
theorem replay_and_write_deterministic
    (base : List Char) (ops : List Operation) (session : Session)
    (dmap : List (String × List Delta)) (files : List (String × String)) :
    replay base ops = replay base ops
      ∧ DeltasIndex.write session dmap files = DeltasIndex.write session dmap files :=
  ⟨rfl, rfl⟩

/-- **C8.** `DeltasIndex::write` on an empty delta mapping returns `Ok` with no
documents, even when the session hash is unset; on a non-empty delta mapping
with no hash it returns an error and emits no documents. -/
theorem write_empty_deltas_and_missing_hash
    (session : Session) (files : List (String × String))
    (dmap : List (String × List Delta))
    (hh : session.hash = none) (hne : dmap ≠ []) :
    DeltasIndex.write session [] files = .ok []
      ∧ DeltasIndex.write session dmap files = .error "Session hash is not set, on" := by
  refine ⟨rfl, ?_⟩
  have hie : dmap.isEmpty = false := by
    cases dmap with
    | nil => exact absurd rfl hne
    | cons p rest => rfl
  simp [DeltasIndex.write, hie, hh]

/-- Witness for C8 at a concrete hashless session. -/
theorem write_empty_deltas_and_missing_hash_witness :
    DeltasIndex.write (Session.mk "s" none) [] [] = .ok []
      ∧ DeltasIndex.write (Session.mk "s" none) [("f", [])] []
          = .error "Session hash is not set, on" :=
  write_empty_deltas_and_missing_hash (Session.mk "s" none) [] [("f", [])]
    rfl (by decide)

/-- **C9.** `has_utmost_discretion` is true exactly when the config value for
`gitbutler.utmostDiscretion` is `"true"` (absence or any other string yields
false); after `set_utmost_discretion(repo, v)` the stored value is `"true"`
when `v` is true and `"false"` when `v` is false, so reading it back returns
`v`. -/
theorem utmost_discretion_get_set (repo : Repo) (v : Bool) :
    (has_utmost_discretion repo = true
        ↔ config_get repo "gitbutler.utmostDiscretion" = some "true")
      ∧ config_get (set_utmost_discretion repo v) "gitbutler.utmostDiscretion"
          = some (if v then "true" else "false")
      ∧ has_utmost_discretion (set_utmost_discretion repo v) = v := by
  refine ⟨?_, ?_, ?_⟩
  · simp [has_utmost_discretion]
  · simp [set_utmost_discretion, config_set, config_get]
  · cases v <;>
      simp [has_utmost_discretion, set_utmost_discretion, config_set, config_get]

/-- **C10.** For every query, `DeltasIndex::search` returns at most 10 results
(the collector is built with `TopDocs::with_limit(10)`). -/
theorem search_at_most_ten (hits : List Doc) :
    (DeltasIndex.search hits).length ≤ 10 := by
  simp only [DeltasIndex.search, topDocs, searchLimit, List.length_map, List.length_take]
  omega

end GitButler
